import Mathlib

/-!
Verification of the server-directory subsystem (`src/openrct2/network/ServerList.cpp`).

Strings (`std::string`) are modelled as byte lists (`List Nat`).  The current game
version supplied by the external collaborator `network_get_version()` is passed
explicitly as a parameter `gv`.  Machine integer casts are modelled arithmetically:
`(uint8_t)` as `% 256`, `(uint32_t)` as `% 2^32`, `(int32_t)` as a two's-complement
wrap into `[-2^31, 2^31)`.
-/

/-- Byte-wise ASCII lower casing, as done by the C locale tolower used by a
case-insensitive string comparison. -/
def toLowerByte (b : Nat) : Nat := if 65 ≤ b ∧ b ≤ 90 then b + 32 else b

/-- Three-way lexicographic comparison of byte lists, sign-normalised to -1/0/1. -/
def lexCmp : List Nat → List Nat → Int
  | [], [] => 0
  | [], _ :: _ => -1
  | _ :: _, [] => 1
  | a :: s, b :: t => if a < b then -1 else if b < a then 1 else lexCmp s t

/-- Modelled from the spec: `String::Compare(a, b, true)` (the String utilities are not
part of this source tree); §4.1 rule 5 specifies a case-insensitive lexicographic
comparison, i.e. lexicographic comparison of the lower-cased strings. -/
def stringCompareNoCase (a b : List Nat) : Int :=
  lexCmp (a.map toLowerByte) (b.map toLowerByte)

/-- Modelled from the spec: the `ServerListEntry` record (its declaration lives in the
header `ServerList.h`, not in this source tree); fields and defaults are those of §3.
`local` is a Lean keyword, so that field is called `isLocal`. -/
structure ServerListEntry where
  address : List Nat := []
  name : List Nat := []
  description : List Nat := []
  version : List Nat := []
  requiresPassword : Bool := false
  players : Nat := 0
  maxplayers : Nat := 0
  favourite : Bool := false
  isLocal : Bool := false
deriving DecidableEq

/-- ServerListEntry::CompareTo, translated branch for branch from the source.  `gv` is
the value of `network_get_version()`. -/
def ServerListEntry.CompareTo (gv : List Nat) (a b : ServerListEntry) : Int :=
  if a.favourite ≠ b.favourite then
    (if a.favourite then -1 else 1)
  else if a.isLocal ≠ b.isLocal then
    (if a.isLocal then 1 else -1)
  else
    let serverACompatible : Bool := a.version == gv
    let serverBCompatible : Bool := b.version == gv
    if serverACompatible ≠ serverBCompatible then
      (if serverACompatible then 1 else -1)
    else if a.requiresPassword ≠ b.requiresPassword then
      (if a.requiresPassword then -1 else 1)
    else
      stringCompareNoCase a.name b.name

/-- ServerListEntry::IsVersionValid: the version is empty or equals the current game
version. -/
def ServerListEntry.IsVersionValid (gv : List Nat) (e : ServerListEntry) : Bool :=
  e.version.isEmpty || e.version == gv

/-- ServerList::Sort sorts with std::sort and the comparator
`(a, b) ↦ a.CompareTo(b) > 0`.  A list is sorted for std::sort exactly when no later
element compares greater than an earlier one. -/
def SortedByCompare (gv : List Nat) (l : List ServerListEntry) : Prop :=
  List.Pairwise (fun a b => ServerListEntry.CompareTo gv b a ≤ 0) l

instance (gv : List Nat) (l : List ServerListEntry) : Decidable (SortedByCompare gv l) := by
  unfold SortedByCompare; infer_instance

/-- ServerList::Sort, modelled relationally: std::sort guarantees exactly that its output
is a permutation of the input that is sorted for the comparator; which permutation is
produced for elements that compare equal is unspecified. -/
def ServerList.SortResult (gv : List Nat) (input output : List ServerListEntry) : Prop :=
  List.Perm output input ∧ SortedByCompare gv output

instance (gv : List Nat) (input output : List ServerListEntry) :
    Decidable (ServerList.SortResult gv input output) := by
  unfold ServerList.SortResult; infer_instance

/-- ServerList::Add: push_back the entry, then Sort. -/
def ServerList.Add (gv : List Nat) (entries : List ServerListEntry) (entry : ServerListEntry)
    (output : List ServerListEntry) : Prop :=
  ServerList.SortResult gv (entries ++ [entry]) output

instance (gv : List Nat) (entries : List ServerListEntry) (entry : ServerListEntry)
    (output : List ServerListEntry) : Decidable (ServerList.Add gv entries entry output) := by
  unfold ServerList.Add; infer_instance

/-- ServerList::AddRange: append the entries, then Sort. -/
def ServerList.AddRange (gv : List Nat) (entries new : List ServerListEntry)
    (output : List ServerListEntry) : Prop :=
  ServerList.SortResult gv (entries ++ new) output

/-- ServerList::GetTotalPlayerCount: std::accumulate of the player counts in uint32
arithmetic. -/
def ServerList.GetTotalPlayerCount (entries : List ServerListEntry) : Nat :=
  entries.foldl (fun acc e => (acc + e.players) % 4294967296) 0

/-- Modelled from the spec: `FileStream::WriteValue<uint32_t>` (FileStream is not part of
this source tree); §6 fixes a little-endian uint32. -/
def u32le (n : Nat) : List Nat :=
  [n % 256, n / 256 % 256, n / 65536 % 256, n / 16777216 % 256]

/-- Modelled from the spec: `FileStream::ReadValue<uint32_t>`; reading past the end of
the data raises, modelled as `none`. -/
def readU32 : List Nat → Option (Nat × List Nat)
  | b0 :: b1 :: b2 :: b3 :: rest => some (b0 + 256 * b1 + 65536 * b2 + 16777216 * b3, rest)
  | _ => none

/-- Modelled from the spec: `FileStream::WriteString`, a length-prefixed byte string
(§6: length-prefixed UTF-8). -/
def writeStr (s : List Nat) : List Nat := u32le s.length ++ s

/-- Modelled from the spec: `FileStream::ReadStdString`, reading a length-prefixed byte
string; reading past the end of the data raises, modelled as `none`. -/
def readStr (bs : List Nat) : Option (List Nat × List Nat) :=
  match readU32 bs with
  | none => none
  | some (len, rest) => if rest.length < len then none else some (rest.take len, rest.drop len)

/-- The entry built for each record by the ServerList::ReadFavourites loop: address, name
and description from the file, requiresPassword false, version empty, favourite true,
players and maxplayers zero (isLocal keeps its default). -/
def favouriteRecord (address name description : List Nat) : ServerListEntry :=
  { address := address, name := name, requiresPassword := false, description := description,
    version := [], favourite := true, players := 0, maxplayers := 0 }

/-- The read loop of ServerList::ReadFavourites: read `numEntries` records of three
strings each, accumulating entries; any raised exception (`none`) discards everything. -/
def readFavouritesLoop : Nat → List Nat → List ServerListEntry → Option (List ServerListEntry)
  | 0, _, acc => some acc.reverse
  | n + 1, bs, acc =>
    match readStr bs with
    | none => none
    | some (address, bs1) =>
      match readStr bs1 with
      | none => none
      | some (name, bs2) =>
        match readStr bs2 with
        | none => none
        | some (description, bs3) =>
          readFavouritesLoop n bs3 (favouriteRecord address name description :: acc)

/-- ServerList::ReadFavourites.  `file` is `none` when the favourites file does not exist
(or cannot be opened); a caught exception during parsing resets the result to the empty
list. -/
def ServerList.ReadFavourites (file : Option (List Nat)) : List ServerListEntry :=
  match file with
  | none => []
  | some bs =>
    match readU32 bs with
    | none => []
    | some (numEntries, rest) =>
      match readFavouritesLoop numEntries rest [] with
      | none => []
      | some entries => entries

/-- The bytes ServerList::WriteFavourites writes for one entry: address, name,
description. -/
def entryFavBytes (e : ServerListEntry) : List Nat :=
  writeStr e.address ++ writeStr e.name ++ writeStr e.description

/-- ServerList::WriteFavourites: a uint32 count (`(uint32_t)entries.size()`) followed by
the per-entry records. -/
def ServerList.WriteFavourites (entries : List ServerListEntry) : List Nat :=
  u32le entries.length ++ (entries.map entryFavBytes).flatten

/-- The entry that reloading the favourites file reproduces for a written entry. -/
def reloadOf (e : ServerListEntry) : ServerListEntry :=
  favouriteRecord e.address e.name e.description

/-- ServerList::ReadAndAddFavourites: erase the favourite-flagged entries, then AddRange
the result of ReadFavourites. -/
def ServerList.ReadAndAddFavourites (gv : List Nat) (entries : List ServerListEntry)
    (file : Option (List Nat)) (output : List ServerListEntry) : Prop :=
  ServerList.AddRange gv (entries.filter (fun e => !e.favourite))
    (ServerList.ReadFavourites file) output

/-- JSON values as handled by the jansson wrapper (real numbers are not modelled; none of
the studied code paths depends on them). -/
inductive Json where
  | null
  | bool (b : Bool)
  | str (s : List Nat)
  | int (n : Int)
  | arr (elems : List Json)
  | obj (fields : List (String × Json))

/-- json_object_get: null on a non-object or a missing key (null inputs propagate). -/
def jObjGet (j : Option Json) (key : String) : Option Json :=
  match j with
  | some (Json.obj fields) => (fields.find? (fun p => p.1 == key)).map (fun p => p.2)
  | _ => none

/-- json_array_get: null on a non-array or an out-of-range index. -/
def jArrGet (j : Option Json) (i : Nat) : Option Json :=
  match j with
  | some (Json.arr elems) => elems[i]?
  | _ => none

/-- json_string_value on a non-null value: jansson returns NULL for a non-string, and
constructing a std::string from NULL is undefined behaviour; modelled as the empty
string. -/
def jStrValue : Json → List Nat
  | Json.str s => s
  | _ => []

/-- json_string_value fed to a printf "%s": a NULL (absent or non-string value) is
printed by glibc as the literal "(null)". -/
def jStrValueFmt : Option Json → List Nat
  | some (Json.str s) => s
  | _ => [40, 110, 117, 108, 108, 41]

/-- json_integer_value: 0 for null or a non-integer value. -/
def jIntValueO : Option Json → Int
  | some (Json.int n) => n
  | _ => 0

/-- json_is_true. -/
def jIsTrue : Option Json → Bool
  | some (Json.bool true) => true
  | _ => false

/-- json_is_number (real numbers are not modelled). -/
def jIsNumber : Option Json → Bool
  | some (Json.int _) => true
  | _ => false

/-- json_is_object. -/
def jIsObj : Json → Bool
  | Json.obj _ => true
  | _ => false

/-- A `(int32_t)` cast of a 64-bit integer: two's-complement wrap. -/
def int32ofInt (n : Int) : Int := (n + 2147483648).emod 4294967296 - 2147483648

/-- Decimal rendering of an integer, as printf "%d" does. -/
def intDecimalBytes (n : Int) : List Nat :=
  if n < 0 then 45 :: (Nat.toDigits 10 n.natAbs).map Char.toNat
  else (Nat.toDigits 10 n.toNat).map Char.toNat

/-- The "host:port" string built by String::StdFormat("%s:%d", ...). -/
def formatHostPort (host : List Nat) (port : Int) : List Nat :=
  host ++ [58] ++ intDecimalBytes port

/-- ServerListEntry::FromJson, translated from the source: name and version are required;
the address is assembled from ip.v4[0] and port; players and maxplayers are cast to
uint8. -/
def ServerListEntry.FromJson (server : Json) : Option ServerListEntry :=
  let port := jObjGet (some server) "port"
  let name := jObjGet (some server) "name"
  let description := jObjGet (some server) "description"
  let requiresPassword := jObjGet (some server) "requiresPassword"
  let version := jObjGet (some server) "version"
  let players := jObjGet (some server) "players"
  let maxPlayers := jObjGet (some server) "maxPlayers"
  let ip := jObjGet (some server) "ip"
  let ip4 := jObjGet ip "v4"
  let addressIp := jArrGet ip4 0
  if name.isNone || version.isNone then
    none
  else
    some
      { address := formatHostPort (jStrValueFmt addressIp) (int32ofInt (jIntValueO port)),
        name := match name with | none => [] | some j => jStrValue j,
        description := match description with | none => [] | some j => jStrValue j,
        version := match version with | none => [] | some j => jStrValue j,
        requiresPassword := jIsTrue requiresPassword,
        players := ((jIntValueO players).emod 256).toNat,
        maxplayers := ((jIntValueO maxPlayers).emod 256).toNat }

/-- The typed failures of ServerList::FetchOnlineServerListAsync (MasterServerException
string ids). -/
inductive MasterServerError where
  | noConnection
  | invalidResponseNumber
  | masterServerFailed
  | invalidResponseArray
deriving DecidableEq

/-- The response handler of ServerList::FetchOnlineServerListAsync, translated from the
source.  `httpOk` is `response.status == Http::Status::OK`; `root` is the result of
Json::FromString on the body (`none` when no JSON value was produced), inspected only
after the transport status check. -/
def ServerList.FetchOnlineResponse (httpOk : Bool) (root : Option Json) :
    Except MasterServerError (List ServerListEntry) :=
  if httpOk = false then Except.error MasterServerError.noConnection
  else
    let jsonStatus := jObjGet root "status"
    if jIsNumber jsonStatus = false then Except.error MasterServerError.invalidResponseNumber
    else
      let status := int32ofInt (jIntValueO jsonStatus)
      if status ≠ 200 then Except.error MasterServerError.masterServerFailed
      else
        match jObjGet root "servers" with
        | some (Json.arr elems) =>
            Except.ok (elems.filterMap
              (fun j => if jIsObj j then ServerListEntry.FromJson j else none))
        | _ => Except.error MasterServerError.invalidResponseArray

/-- The bundle of properties making a three-way comparison a strict weak order witness:
sign antisymmetry, transitivity of the strict part, and left congruence of ties. -/
def GoodCmp {α : Type} (cmp : α → α → Int) : Prop :=
  (∀ x y, cmp x y = -(cmp y x)) ∧
  (∀ x y z, 0 < cmp x y → 0 < cmp y z → 0 < cmp x z) ∧
  (∀ x y z, cmp x y = 0 → cmp x z = cmp y z)

/-- Lexicographic combination of two three-way comparisons. -/
def lexC {α : Type} (c d : α → α → Int) (a b : α) : Int :=
  if c a b = 0 then d a b else c a b

/-- Sign-normalised three-way comparison of integers. -/
def cmp3 (x y : Int) : Int := if x < y then -1 else if x = y then 0 else 1

/-- The favourite branch of CompareTo as a key: favourite entries compare less. -/
def kFav (e : ServerListEntry) : Int := if e.favourite then 0 else 1

/-- The local branch of CompareTo as a key: local entries compare greater. -/
def kLocal (e : ServerListEntry) : Int := if e.isLocal then 1 else 0

/-- The version branch of CompareTo as a key: compatible entries compare greater. -/
def kVer (gv : List Nat) (e : ServerListEntry) : Int := if e.version = gv then 1 else 0

/-- The password branch of CompareTo as a key: password-protected entries compare
less. -/
def kPwd (e : ServerListEntry) : Int := if e.requiresPassword then 0 else 1

/-- The favourite branch of CompareTo as a comparison. -/
def cFav (a b : ServerListEntry) : Int := cmp3 (kFav a) (kFav b)

/-- The local branch of CompareTo as a comparison. -/
def cLocal (a b : ServerListEntry) : Int := cmp3 (kLocal a) (kLocal b)

/-- The version branch of CompareTo as a comparison. -/
def cVer (gv : List Nat) (a b : ServerListEntry) : Int := cmp3 (kVer gv a) (kVer gv b)

/-- The password branch of CompareTo as a comparison. -/
def cPwd (a b : ServerListEntry) : Int := cmp3 (kPwd a) (kPwd b)

/-- The name branch of CompareTo as a comparison. -/
def cName (a b : ServerListEntry) : Int := stringCompareNoCase a.name b.name

/-- cmp3 is sign-antisymmetric. -/
theorem cmp3_neg (x y : Int) : cmp3 x y = -(cmp3 y x) := by
  unfold cmp3; split_ifs <;> omega

/-- cmp3 strict comparison is transitive. -/
theorem cmp3_trans (x y z : Int) : 0 < cmp3 x y → 0 < cmp3 y z → 0 < cmp3 x z := by
  unfold cmp3; split_ifs <;> omega

/-- cmp3 vanishes exactly on equal arguments. -/
theorem cmp3_eq_zero (x y : Int) : cmp3 x y = 0 ↔ x = y := by
  unfold cmp3
  split_ifs with h1 h2
  · constructor
    · intro h
      exact absurd h (by decide)
    · intro h
      omega
  · simp [h2]
  · constructor
    · intro h
      exact absurd h (by decide)
    · intro h
      omega

/-- Keyed cmp3 comparisons satisfy GoodCmp. -/
theorem goodCmp_keyed {α : Type} (k : α → Int) : GoodCmp (fun a b => cmp3 (k a) (k b)) := by
  refine ⟨fun x y => cmp3_neg _ _, fun x y z h1 h2 => cmp3_trans _ _ _ h1 h2, ?_⟩
  intro x y z h0
  have h0' : cmp3 (k x) (k y) = 0 := h0
  show cmp3 (k x) (k z) = cmp3 (k y) (k z)
  rw [(cmp3_eq_zero _ _).mp h0']

/-- lexCmp is sign-antisymmetric. -/
theorem lexCmp_neg : ∀ s t : List Nat, lexCmp s t = -(lexCmp t s)
  | [], [] => by simp [lexCmp]
  | [], _ :: _ => by simp [lexCmp]
  | _ :: _, [] => by simp [lexCmp]
  | a :: s, b :: t => by
    simp only [lexCmp]
    rcases Nat.lt_trichotomy a b with h | h | h
    · simp [h, Nat.lt_asymm h]
    · subst h
      simp [Nat.lt_irrefl, lexCmp_neg s t]
    · simp [h, Nat.lt_asymm h]

/-- lexCmp strict comparison is transitive. -/
theorem lexCmp_trans : ∀ s t u : List Nat, 0 < lexCmp s t → 0 < lexCmp t u → 0 < lexCmp s u
  | [], t, u => by
    intro h1 _
    exfalso
    cases t <;> simp [lexCmp] at h1
  | _ :: _, [], u => by
    intro _ h2
    exfalso
    cases u <;> simp [lexCmp] at h2
  | _ :: _, _ :: _, [] => by
    intro _ _
    simp [lexCmp]
  | a :: s, b :: t, c :: u => by
    intro h1 h2
    simp only [lexCmp] at h1 h2 ⊢
    rcases Nat.lt_trichotomy a b with hab | hab | hab
    · simp [hab] at h1
    · subst hab
      rcases Nat.lt_trichotomy a c with hac | hac | hac
      · simp [hac] at h2
      · subst hac
        simp only [Nat.lt_irrefl, if_false] at h1 h2 ⊢
        exact lexCmp_trans s t u h1 h2
      · simp [hac, Nat.lt_asymm hac]
    · rcases Nat.lt_trichotomy b c with hbc | hbc | hbc
      · simp [hbc] at h2
      · subst hbc
        simp [hab, Nat.lt_asymm hab]
      · have hca : c < a := Nat.lt_trans hbc hab
        simp [hca, Nat.lt_asymm hca]

/-- lexCmp vanishes exactly on equal lists. -/
theorem lexCmp_eq_zero : ∀ s t : List Nat, lexCmp s t = 0 ↔ s = t
  | [], [] => by simp [lexCmp]
  | [], _ :: _ => by simp [lexCmp]
  | _ :: _, [] => by simp [lexCmp]
  | a :: s, b :: t => by
    simp only [lexCmp]
    rcases Nat.lt_trichotomy a b with h | h | h
    · have : a ≠ b := Nat.ne_of_lt h
      simp [h, this]
    · subst h
      simp [Nat.lt_irrefl, lexCmp_eq_zero s t]
    · have : a ≠ b := (Nat.ne_of_lt h).symm
      simp [h, Nat.lt_asymm h, this]

/-- The name comparison satisfies GoodCmp. -/
theorem goodCmp_cName : GoodCmp cName := by
  refine ⟨fun x y => lexCmp_neg _ _, fun x y z h1 h2 => lexCmp_trans _ _ _ h1 h2, ?_⟩
  intro x y z h0
  unfold cName stringCompareNoCase at h0 ⊢
  rw [(lexCmp_eq_zero _ _).mp h0]

/-- GoodCmp transports along pointwise equal comparisons. -/
theorem goodCmp_ext {α : Type} {c c' : α → α → Int} (h : ∀ a b, c a b = c' a b)
    (hg : GoodCmp c') : GoodCmp c := by
  obtain ⟨hn, ht, hc⟩ := hg
  refine ⟨?_, ?_, ?_⟩
  · intro x y
    rw [h, h, hn]
  · intro x y z h1 h2
    rw [h] at h1 h2 ⊢
    exact ht x y z h1 h2
  · intro x y z h0
    rw [h] at h0
    rw [h, h]
    exact hc x y z h0

/-- Lexicographic combination preserves GoodCmp. -/
theorem goodCmp_lexC {α : Type} {c d : α → α → Int} (hc : GoodCmp c) (hd : GoodCmp d) :
    GoodCmp (lexC c d) := by
  obtain ⟨hcn, hct, hcc⟩ := hc
  obtain ⟨hdn, hdt, hdc⟩ := hd
  refine ⟨?_, ?_, ?_⟩
  · intro x y
    by_cases h : c x y = 0
    · have h' : c y x = 0 := by have := hcn x y; omega
      simp [lexC, h, h', hdn x y]
    · have h' : ¬ c y x = 0 := by have := hcn x y; omega
      simp [lexC, h, h', hcn x y]
  · intro x y z hxy hyz
    by_cases h1 : c x y = 0
    · by_cases h2 : c y z = 0
      · have hdxz := hdt x y z (by simpa [lexC, h1] using hxy) (by simpa [lexC, h2] using hyz)
        have hcxz : c x z = 0 := by rw [hcc x y z h1]; exact h2
        simpa [lexC, hcxz] using hdxz
      · have hcyz : 0 < c y z := by
          have := hyz
          simp only [lexC, if_neg h2] at this
          exact this
        have hcxz : 0 < c x z := by rw [hcc x y z h1]; exact hcyz
        simp only [lexC, if_neg (by omega : ¬ c x z = 0)]
        exact hcxz
    · have hcxy : 0 < c x y := by
        have := hxy
        simp only [lexC, if_neg h1] at this
        exact this
      by_cases h2 : c y z = 0
      · have e1 : c y x = c z x := hcc y z x h2
        have e2 := hcn x y
        have e3 := hcn x z
        have hcxz : 0 < c x z := by omega
        simp only [lexC, if_neg (by omega : ¬ c x z = 0)]
        exact hcxz
      · have hcyz : 0 < c y z := by
          have := hyz
          simp only [lexC, if_neg h2] at this
          exact this
        have hcxz := hct x y z hcxy hcyz
        simp only [lexC, if_neg (by omega : ¬ c x z = 0)]
        exact hcxz
  · intro x y z h0
    by_cases h1 : c x y = 0
    · have hd0 : d x y = 0 := by
        have := h0
        simp only [lexC, if_pos h1] at this
        exact this
      have e1 : c x z = c y z := hcc x y z h1
      by_cases h2 : c x z = 0
      · have h3 : c y z = 0 := by omega
        simp [lexC, h2, h3, hdc x y z hd0]
      · have h3 : ¬ c y z = 0 := by omega
        simp [lexC, h2, h3, e1]
    · exfalso
      have : lexC c d x y = c x y := by simp [lexC, h1]
      omega

/-- cmp3 of equal arguments. -/
theorem cmp3_self (x : Int) : cmp3 x x = 0 := by
  unfold cmp3; split_ifs <;> omega

/-- cmp3 0 1. -/
theorem cmp3_zero_one : cmp3 0 1 = -1 := by decide

/-- cmp3 1 0. -/
theorem cmp3_one_zero : cmp3 1 0 = 1 := by decide

/-- CompareTo coincides with the lexicographic combination of its five branch
comparisons. -/
theorem compareTo_eq_lexC (gv : List Nat) (a b : ServerListEntry) :
    ServerListEntry.CompareTo gv a b =
      lexC cFav (lexC cLocal (lexC (cVer gv) (lexC cPwd cName))) a b := by
  obtain ⟨aa, an, ad, av, ap, apl, am, af, al⟩ := a
  obtain ⟨ba, bn, bd, bv, bp, bpl, bm, bf, bl⟩ := b
  by_cases hva : av = gv <;> by_cases hvb : bv = gv <;>
    cases af <;> cases bf <;> cases al <;> cases bl <;> cases ap <;> cases bp <;>
      simp [ServerListEntry.CompareTo, lexC, cFav, cLocal, cVer, cPwd, cName, kFav, kLocal,
        kVer, kPwd, cmp3_self, cmp3_zero_one, cmp3_one_zero, hva, hvb]

/-- CompareTo satisfies GoodCmp. -/
theorem goodCmp_compareTo (gv : List Nat) : GoodCmp (ServerListEntry.CompareTo gv) :=
  goodCmp_ext (fun a b => compareTo_eq_lexC gv a b)
    (goodCmp_lexC (goodCmp_keyed kFav)
      (goodCmp_lexC (goodCmp_keyed kLocal)
        (goodCmp_lexC (goodCmp_keyed (kVer gv))
          (goodCmp_lexC (goodCmp_keyed kPwd) goodCmp_cName))))

/-- Tie-freeness of CompareTo is a symmetric relation. -/
theorem compareTo_ne_zero_symm (gv : List Nat) (x y : ServerListEntry)
    (hxy : ServerListEntry.CompareTo gv x y ≠ 0) :
    ServerListEntry.CompareTo gv y x ≠ 0 := by
  intro h0
  have := (goodCmp_compareTo gv).1 x y
  exact hxy (by omega)

/-- Two sorted permutations of each other without comparison ties are equal. -/
theorem sortedPermNoTiesEq (gv : List Nat) :
    ∀ l₁ l₂ : List ServerListEntry, List.Perm l₁ l₂ →
      SortedByCompare gv l₁ → SortedByCompare gv l₂ →
      List.Pairwise (fun a b => ServerListEntry.CompareTo gv a b ≠ 0) l₁ →
      l₁ = l₂ := by
  intro l₁
  induction l₁ with
  | nil =>
    intro l₂ hp _ _ _
    cases l₂ with
    | nil => rfl
    | cons b t =>
      have := hp.length_eq
      simp at this
  | cons a t ih =>
    intro l₂ hp hs1 hs2 hnt
    cases l₂ with
    | nil =>
      have := hp.length_eq
      simp at this
    | cons b t₂ =>
      unfold SortedByCompare at hs1 hs2
      have hab : a = b := by
        by_contra hne
        have hbmem : b ∈ a :: t := hp.mem_iff.mpr (List.mem_cons_self b t₂)
        have hbt : b ∈ t := by
          rcases List.mem_cons.mp hbmem with h | h
          · exact absurd h.symm hne
          · exact h
        have h1 : ServerListEntry.CompareTo gv a b ≠ 0 := (List.pairwise_cons.mp hnt).1 b hbt
        have h2 : ServerListEntry.CompareTo gv b a ≤ 0 := (List.pairwise_cons.mp hs1).1 b hbt
        have hamem : a ∈ b :: t₂ := hp.mem_iff.mp (List.mem_cons_self a t)
        have hat : a ∈ t₂ := by
          rcases List.mem_cons.mp hamem with h | h
          · exact absurd h hne
          · exact h
        have h3 : ServerListEntry.CompareTo gv a b ≤ 0 := (List.pairwise_cons.mp hs2).1 a hat
        have h4 := (goodCmp_compareTo gv).1 a b
        omega
      subst hab
      have hp' := hp.cons_inv
      have he := ih t₂ hp' (List.pairwise_cons.mp hs1).2 (List.pairwise_cons.mp hs2).2
        (List.pairwise_cons.mp hnt).2
      rw [he]

/-- C1.  The claim states that after any Sort (as triggered by Add, AddRange or
ReadAndAddFavourites) every favourite entry precedes every non-favourite entry.  The
code does the opposite: CompareTo returns -1 for the favourite entry, and the sort
comparator `a.CompareTo(b) > 0` puts entries that compare greater first, so with two
entries that differ only in the favourite flag the unique valid sorted order places the
non-favourite entry first.  This theorem evaluates the code at that failing input. -/
theorem claim1_favourite_sorted_last :
    ServerList.Add [] [{ favourite := true }] { }
      [{ }, { favourite := true }] ∧
    ¬ ServerList.Add [] [{ favourite := true }] { }
      [{ favourite := true }, { }] := by
  decide

/-- C2.  The claim states that among entries of equal favourite status a non-local entry
precedes a local one.  The code does the opposite: CompareTo returns 1 for the local
entry, and the sort comparator `a.CompareTo(b) > 0` puts entries that compare greater
first, so with two entries that differ only in the local flag the unique valid sorted
order places the local entry first.  This theorem evaluates the code at that failing
input. -/
theorem claim2_local_sorted_first :
    ServerList.Add [] [{ }] { isLocal := true }
      [{ isLocal := true }, { }] ∧
    ¬ ServerList.Add [] [{ }] { isLocal := true }
      [{ }, { isLocal := true }] := by
  decide

/-- C3, counterexample.  Sorting an already-sorted sequence need not return the identical
sequence: std::sort gives no stability guarantee, so two entries that are tied on all
five comparison keys (here differing only in address) may legally be swapped. -/
theorem claim3_counterexample :
    SortedByCompare [] [{ address := [49] }, { address := [50] }] ∧
    ServerList.SortResult [] [{ address := [49] }, { address := [50] }]
      [{ address := [50] }, { address := [49] }] ∧
    ([{ address := [50] }, { address := [49] }] ≠
      ([{ address := [49] }, { address := [50] }] : List ServerListEntry)) := by
  decide

/-- C3 (amended).  Applying Sort to an already-sorted sequence yields a permutation of it
that is again sorted, and it yields the identical sequence whenever no two entries are
tied on all five comparison keys; entries tied on all five keys may be reordered, since
std::sort is not stable. -/
theorem claim3_sort_idempotent_amended (gv : List Nat) (l out : List ServerListEntry)
    (hsorted : SortedByCompare gv l) (h : ServerList.SortResult gv l out) :
    List.Perm out l ∧ SortedByCompare gv out ∧
      (List.Pairwise (fun a b => ServerListEntry.CompareTo gv a b ≠ 0) l → out = l) := by
  obtain ⟨hperm, hs⟩ := h
  refine ⟨hperm, hs, fun hnt => ?_⟩
  have hnt' := (List.Perm.pairwise_iff
    (fun hxy => compareTo_ne_zero_symm gv _ _ hxy) hperm).mpr hnt
  exact sortedPermNoTiesEq gv out l hperm hs hsorted hnt'

/-- C3, witness for the amended theorem at a concrete sorted one-entry list. -/
theorem claim3_witness :
    List.Perm [({ address := [49] } : ServerListEntry)] [{ address := [49] }] ∧
    SortedByCompare [] [{ address := [49] }] ∧
    (List.Pairwise (fun a b => ServerListEntry.CompareTo [] a b ≠ 0)
        [({ address := [49] } : ServerListEntry)] →
      [({ address := [49] } : ServerListEntry)] = [{ address := [49] }]) :=
  claim3_sort_idempotent_amended [] [{ address := [49] }] [{ address := [49] }]
    (by decide) (by decide)

/-- C4.  CompareTo is sign-antisymmetric: A.CompareTo(B) and B.CompareTo(A) have opposite
signs and vanish together; and the strict order it induces is transitive for all
triples. -/
theorem claim4_compareTo_antisym_trans (gv : List Nat) (a b c : ServerListEntry) :
    (0 < ServerListEntry.CompareTo gv a b ↔ ServerListEntry.CompareTo gv b a < 0) ∧
    (ServerListEntry.CompareTo gv a b = 0 ↔ ServerListEntry.CompareTo gv b a = 0) ∧
    (0 < ServerListEntry.CompareTo gv a b → 0 < ServerListEntry.CompareTo gv b c →
      0 < ServerListEntry.CompareTo gv a c) := by
  obtain ⟨hn, ht, _⟩ := goodCmp_compareTo gv
  have h1 := hn a b
  refine ⟨?_, ?_, ht a b c⟩
  · constructor <;> intro <;> omega
  · constructor <;> intro <;> omega

/-- C4, witness: transitivity applied to a concrete descending-name triple. -/
theorem claim4_witness :
    0 < ServerListEntry.CompareTo [] { name := [99] } { name := [97] } :=
  (claim4_compareTo_antisym_trans [] { name := [99] } { name := [98] } { name := [97] }).2.2
    (by decide) (by decide)

/-- C5.  IsVersionValid returns true for the empty version whatever the current game
version is; for a non-empty version it returns true exactly when the version equals the
externally supplied current game version string. -/
theorem claim5_isVersionValid (gv : List Nat) (e : ServerListEntry) :
    (e.version = [] → ServerListEntry.IsVersionValid gv e = true) ∧
    (e.version ≠ [] → (ServerListEntry.IsVersionValid gv e = true ↔ e.version = gv)) := by
  unfold ServerListEntry.IsVersionValid
  constructor
  · intro h
    simp [h]
  · intro h
    simp [List.isEmpty_iff, h]

/-- C5, witness: an empty version under a different current version, and a matching
non-empty version. -/
theorem claim5_witness :
    ServerListEntry.IsVersionValid [49] { } = true ∧
    (ServerListEntry.IsVersionValid [49] { version := [49] } = true ↔
      ({ version := [49] } : ServerListEntry).version = [49]) :=
  ⟨(claim5_isVersionValid [49] { }).1 rfl,
   (claim5_isVersionValid [49] { version := [49] }).2 (by decide)⟩

/-- Taking the length of the left part of an append returns the left part. -/
theorem takeAppendSelf (s rest : List Nat) : (s ++ rest).take s.length = s := by
  induction s with
  | nil => simp
  | cons a t ih => simp [ih]

/-- Dropping the length of the left part of an append returns the right part. -/
theorem dropAppendSelf (s rest : List Nat) : (s ++ rest).drop s.length = rest := by
  induction s with
  | nil => simp
  | cons a t ih => simp [ih]

/-- Decoding inverts the little-endian uint32 encoding, modulo 2^32. -/
theorem readU32_append (n : Nat) (rest : List Nat) :
    readU32 (u32le n ++ rest) = some (n % 4294967296, rest) := by
  simp only [u32le, List.cons_append, List.nil_append, readU32, Option.some.injEq,
    Prod.mk.injEq]
  exact ⟨by omega, trivial⟩

/-- Decoding inverts the length-prefixed string encoding for strings shorter than
2^32. -/
theorem readStr_append (s rest : List Nat) (h : s.length < 4294967296) :
    readStr (writeStr s ++ rest) = some (s, rest) := by
  unfold writeStr readStr
  rw [List.append_assoc, readU32_append, Nat.mod_eq_of_lt h]
  simp only [List.length_append]
  rw [if_neg (by omega)]
  rw [takeAppendSelf, dropAppendSelf]

/-- The favourites read loop inverts the per-entry encoding. -/
theorem readFavouritesLoop_encode :
    ∀ (es acc : List ServerListEntry) (rest : List Nat),
      (∀ e ∈ es, e.address.length < 4294967296 ∧ e.name.length < 4294967296 ∧
        e.description.length < 4294967296) →
      readFavouritesLoop es.length ((es.map entryFavBytes).flatten ++ rest) acc =
        some (acc.reverse ++ es.map reloadOf) := by
  intro es
  induction es with
  | nil =>
    intro acc rest _
    simp [readFavouritesLoop]
  | cons e t ih =>
    intro acc rest h
    obtain ⟨h1, h2, h3⟩ := h e (List.mem_cons_self e t)
    simp only [List.map_cons, List.flatten_cons, List.length_cons, entryFavBytes,
      List.append_assoc]
    unfold readFavouritesLoop
    rw [readStr_append _ _ h1]
    simp only []
    rw [readStr_append _ _ h2]
    simp only []
    rw [readStr_append _ _ h3]
    simp only []
    rw [ih (favouriteRecord e.address e.name e.description :: acc) rest
      (fun x hx => h x (List.mem_cons_of_mem e hx))]
    simp [reloadOf, List.append_assoc]

/-- C6.  Writing a sequence of entries in the favourites format and reading it back
yields a sequence of the same length whose entries reproduce address, name and
description exactly and have favourite true, players 0, maxplayers 0, version empty and
requiresPassword false; the sizes must fit the uint32 fields of the format. -/
theorem claim6_favourites_roundtrip (es : List ServerListEntry)
    (hlen : es.length < 4294967296)
    (hstr : ∀ e ∈ es, e.address.length < 4294967296 ∧ e.name.length < 4294967296 ∧
      e.description.length < 4294967296) :
    ServerList.ReadFavourites (some (ServerList.WriteFavourites es)) = es.map reloadOf := by
  have hl := readFavouritesLoop_encode es [] [] hstr
  rw [List.append_nil] at hl
  simp only [List.reverse_nil, List.nil_append] at hl
  simp only [ServerList.ReadFavourites, ServerList.WriteFavourites, readU32_append,
    Nat.mod_eq_of_lt hlen, hl]

/-- C6, witness at a one-entry list with non-trivial strings. -/
theorem claim6_witness :
    ServerList.ReadFavourites (some (ServerList.WriteFavourites
      [{ address := [49, 50], name := [65], description := [100], players := 3 }])) =
      [reloadOf { address := [49, 50], name := [65], description := [100], players := 3 }] :=
  claim6_favourites_roundtrip _ (by decide) (by decide)

/-- C9.  ReadFavourites returns the empty list when the favourites file does not exist;
when the file content is malformed (the count or any record read raises) it returns the
empty list; and in general its result is either empty or the complete parse of the
declared number of records — never a proper partial prefix, and never a propagated
exception (the model is a total function). -/
theorem claim9_readFavourites_failure_empty :
    ServerList.ReadFavourites none = [] ∧
    (∀ bs, readU32 bs = none → ServerList.ReadFavourites (some bs) = []) ∧
    (∀ bs n rest, readU32 bs = some (n, rest) → readFavouritesLoop n rest [] = none →
      ServerList.ReadFavourites (some bs) = []) ∧
    (∀ bs, ServerList.ReadFavourites (some bs) = [] ∨
      ∃ n rest, readU32 bs = some (n, rest) ∧
        readFavouritesLoop n rest [] = some (ServerList.ReadFavourites (some bs))) := by
  refine ⟨rfl, ?_, ?_, ?_⟩
  · intro bs h
    simp [ServerList.ReadFavourites, h]
  · intro bs n rest h1 h2
    simp [ServerList.ReadFavourites, h1, h2]
  · intro bs
    rcases hr : readU32 bs with _ | ⟨n, rest⟩
    · left
      simp [ServerList.ReadFavourites, hr]
    · rcases hl : readFavouritesLoop n rest [] with _ | es
      · left
        simp [ServerList.ReadFavourites, hr, hl]
      · right
        exact ⟨n, rest, rfl, by simp [ServerList.ReadFavourites, hr, hl]⟩

/-- C9, witness: a file declaring one record but containing no record bytes parses to the
empty list. -/
theorem claim9_witness : ServerList.ReadFavourites (some [1, 0, 0, 0]) = [] :=
  claim9_readFavourites_failure_empty.2.2.1 [1, 0, 0, 0] 1 [] (by decide) (by decide)

/-- C7.  FromJson yields no entry — an empty optional, not an error — for every record
missing the name field or the version field; for a record with name and version present
and all optional fields absent it yields an entry with empty description,
requiresPassword false, players 0 and maxplayers 0. -/
theorem claim7_fromJson_required_and_defaults (fs : List (String × Json)) :
    (jObjGet (some (Json.obj fs)) "name" = none ∨
        jObjGet (some (Json.obj fs)) "version" = none →
      ServerListEntry.FromJson (Json.obj fs) = none) ∧
    (∀ jn jv, jObjGet (some (Json.obj fs)) "name" = some jn →
      jObjGet (some (Json.obj fs)) "version" = some jv →
      jObjGet (some (Json.obj fs)) "description" = none →
      jObjGet (some (Json.obj fs)) "requiresPassword" = none →
      jObjGet (some (Json.obj fs)) "players" = none →
      jObjGet (some (Json.obj fs)) "maxPlayers" = none →
      ∃ e, ServerListEntry.FromJson (Json.obj fs) = some e ∧
        e.description = [] ∧ e.requiresPassword = false ∧ e.players = 0 ∧ e.maxplayers = 0) := by
  constructor
  · intro h
    unfold ServerListEntry.FromJson
    rcases h with h | h <;> simp [h]
  · intro jn jv hn hv hd hr hp hq
    unfold ServerListEntry.FromJson
    simp only [hn, hv, hd, hr, hp, hq, Option.isNone_some, Bool.or_self, Bool.false_eq_true,
      if_false, jIsTrue, jIntValueO]
    refine ⟨_, rfl, rfl, rfl, ?_, ?_⟩ <;>
      · show (Int.emod 0 256).toNat = 0
        decide

/-- C7, witness: a record missing name is rejected; a record with only name and version
decodes to the defaults. -/
theorem claim7_witness :
    ServerListEntry.FromJson (Json.obj [("version", Json.str [49])]) = none ∧
    (∃ e, ServerListEntry.FromJson
        (Json.obj [("name", Json.str [65]), ("version", Json.str [49])]) = some e ∧
      e.description = [] ∧ e.requiresPassword = false ∧ e.players = 0 ∧ e.maxplayers = 0) :=
  ⟨(claim7_fromJson_required_and_defaults _).1 (Or.inl rfl),
   (claim7_fromJson_required_and_defaults _).2 (Json.str [65]) (Json.str [49])
     rfl rfl rfl rfl rfl rfl⟩

/-- C8 (amended).  The fetch handler fails in check order: a non-OK transport status
yields the no-connection failure for every body, parseable or not; with an OK transport
status, a present numeric status whose value truncated to int32 differs from 200 yields
the master-server failure whatever else the envelope contains; and with a status that
truncates to 200, a servers field that is absent or not an array yields the
invalid-response-array failure. -/
theorem claim8_fetch_failures (root : Option Json) :
    (ServerList.FetchOnlineResponse false root =
      Except.error MasterServerError.noConnection) ∧
    (jIsNumber (jObjGet root "status") = true →
      int32ofInt (jIntValueO (jObjGet root "status")) ≠ 200 →
      ServerList.FetchOnlineResponse true root =
        Except.error MasterServerError.masterServerFailed) ∧
    (jIsNumber (jObjGet root "status") = true →
      int32ofInt (jIntValueO (jObjGet root "status")) = 200 →
      (∀ elems, jObjGet root "servers" ≠ some (Json.arr elems)) →
      ServerList.FetchOnlineResponse true root =
        Except.error MasterServerError.invalidResponseArray) := by
  refine ⟨rfl, ?_, ?_⟩
  · intro h1 h2
    simp [ServerList.FetchOnlineResponse, h1, h2]
  · intro h1 h2 h3
    unfold ServerList.FetchOnlineResponse
    simp only [h1, h2]
    rcases hs : jObjGet root "servers" with _ | j
    · simp
    · cases j with
      | arr elems => exact absurd hs (h3 elems)
      | null => simp
      | bool b => simp
      | str s => simp
      | int n => simp
      | obj fields => simp

/-- C8, witness: a 404 status fails as master-server failure despite a well-formed
servers array, and a 200 status with no servers field fails as invalid response
array. -/
theorem claim8_witness :
    ServerList.FetchOnlineResponse true (some (Json.obj [("status", Json.int 404),
      ("servers", Json.arr [])])) = Except.error MasterServerError.masterServerFailed ∧
    ServerList.FetchOnlineResponse true (some (Json.obj [("status", Json.int 200)])) =
      Except.error MasterServerError.invalidResponseArray :=
  ⟨(claim8_fetch_failures _).2.1 rfl (by decide),
   (claim8_fetch_failures _).2.2 rfl (by decide)
     (fun elems h => Option.noConfusion h)⟩

/-- C8, counterexample to the claim as stated: the code compares the status after an
int32 truncation, so the numeric status 4294967496 (2^32 + 200), which is not equal to
200, does not produce the master-server failure — the fetch succeeds. -/
theorem claim8_counterexample :
    jIsNumber (jObjGet (some (Json.obj [("status", Json.int 4294967496),
      ("servers", Json.arr [])])) "status") = true ∧
    jIntValueO (jObjGet (some (Json.obj [("status", Json.int 4294967496),
      ("servers", Json.arr [])])) "status") ≠ 200 ∧
    ServerList.FetchOnlineResponse true (some (Json.obj [("status", Json.int 4294967496),
      ("servers", Json.arr [])])) = Except.ok [] := by
  refine ⟨rfl, by decide, ?_⟩
  rfl

/-- C10.  FromJson truncates the players and maxPlayers fields to 8 bits: the decoded
entry stores the field value modulo 256, and a single such entry contributes exactly
that truncated value to GetTotalPlayerCount. -/
theorem claim10_players_mod256 (fs : List (String × Json)) (jn jv : Json) (p q : Int)
    (hn : jObjGet (some (Json.obj fs)) "name" = some jn)
    (hv : jObjGet (some (Json.obj fs)) "version" = some jv)
    (hp : jObjGet (some (Json.obj fs)) "players" = some (Json.int p))
    (hq : jObjGet (some (Json.obj fs)) "maxPlayers" = some (Json.int q)) :
    ∃ e, ServerListEntry.FromJson (Json.obj fs) = some e ∧
      e.players = (p.emod 256).toNat ∧ e.maxplayers = (q.emod 256).toNat ∧
      ServerList.GetTotalPlayerCount [e] = (p.emod 256).toNat := by
  unfold ServerListEntry.FromJson
  simp only [hn, hv, hp, hq, Option.isNone_some, Bool.or_self, Bool.false_eq_true, if_false,
    jIntValueO]
  refine ⟨_, rfl, rfl, rfl, ?_⟩
  show (0 + (p.emod 256).toNat) % 4294967296 = (p.emod 256).toNat
  have h1 : 0 ≤ p.emod 256 := Int.emod_nonneg p (by decide)
  have h2 : p.emod 256 < 256 := Int.emod_lt_of_pos p (by decide)
  omega

/-- C10, witness: a server reporting 300 players decodes to 44 = 300 mod 256 and
contributes 44 to the total player count. -/
theorem claim10_witness :
    ∃ e, ServerListEntry.FromJson (Json.obj [("name", Json.str [65]),
      ("version", Json.str [49]), ("players", Json.int 300),
      ("maxPlayers", Json.int 7)]) = some e ∧
      e.players = ((300 : Int).emod 256).toNat ∧
      e.maxplayers = ((7 : Int).emod 256).toNat ∧
      ServerList.GetTotalPlayerCount [e] = ((300 : Int).emod 256).toNat :=
  claim10_players_mod256 _ _ _ 300 7 rfl rfl rfl rfl
